import Mathlib

/-!
# Shallow embedding of the XP/leveling engine

This development embeds the leveling subsystem of the bot
(`data_manager.py` and `cogs/leveling.py`) and proves the specified
properties about it.

Python machine details embedded exactly:
  * `int(x)` on a nonnegative float/number truncates toward zero; we model
    float arithmetic on the multiplier and thresholds with exact rationals
    (the float expressions involved, `100 * (level * 1.5)` and
    `amount * multiplier` for the configured multipliers, are exact in
    double precision over the representable range), and truncation by
    `ratTrunc` (truncated division of numerator by denominator).
  * `100 * (level * 1.5)` therefore equals `150 * level` exactly; the
    level-up loop compares and subtracts that value.
-/

namespace LevelingBot

/-- `int()` truncation toward zero of a rational, as Python's `int(float)`. -/
def ratTrunc (q : ℚ) : ℤ := q.num.tdiv q.den

/-- XP threshold to leave `level`: `int(100 * (level * 1.5))`, which is
exactly `150 * level`. -/
def xpRequired (level : ℕ) : ℕ := 150 * level

/-- A stored user record (`config_data["user_levels"][gid][uid]`). -/
structure UserRecord where
  level : ℕ
  xp : ℕ
  total_xp : ℕ
deriving Repr, DecidableEq

/-- The record `add_user_xp` creates for an unknown user; also the default
returned by `get_user_level_data`. -/
def defaultRecord : UserRecord := ⟨1, 0, 0⟩

/-- The value returned by `add_user_xp`. -/
structure GrantResult where
  level : ℕ
  xp : ℕ
  total_xp : ℕ
  leveled_up : Bool
deriving Repr, DecidableEq

/-- The `while current_xp >= xp_for_next_level` loop of `add_user_xp`:
each iteration subtracts `int(xp_for_next_level)` (= `150 * level`),
increments the level, sets the `leveled_up` flag, and recomputes the
threshold at the new level. -/
def levelLoop (level xp : ℕ) (leveledUp : Bool) : ℕ × ℕ × Bool :=
  if xpRequired level ≤ xp then
    levelLoop (level + 1) (xp - xpRequired level) true
  else
    (level, xp, leveledUp)
termination_by xp + 150 - min (xpRequired level) 150
decreasing_by
  simp only [xpRequired] at *
  omega

/-- `DataManager.add_user_xp` on one user's record: applies the multiplier
with a single `int()` truncation, adds the gained XP to `xp` and
`total_xp`, then runs the level-up loop.  (`rec` is the stored record, or
`defaultRecord` for a user seen for the first time.)  The embedding covers
nonnegative multipliers, the only ones the config admits. -/
def addUserXp (rec : UserRecord) (amount : ℕ) (mult : ℚ) : GrantResult :=
  let gained := (ratTrunc (amount * mult)).toNat
  let newXp := rec.xp + gained
  let newTotal := rec.total_xp + gained
  let out := levelLoop rec.level newXp false
  ⟨out.1, out.2.1, newTotal, out.2.2⟩

/-- The record `add_user_xp` persists. -/
def recordOf (r : GrantResult) : UserRecord := ⟨r.level, r.xp, r.total_xp⟩

/-- A sequence of calls to `add_user_xp` on one user's record, one raw
amount per call, all under the same configured multiplier. -/
def applyGrants (rec : UserRecord) (mult : ℚ) : List ℕ → UserRecord
  | [] => rec
  | a :: as => applyGrants (recordOf (addUserXp rec a mult)) mult as

/-! ## The message handler and the admin command (`cogs/leveling.py`) -/

/-- The inputs of one `on_message` invocation that the leveling logic
reads: author bot flag, `len(message.content)`, the event-loop clock, the
guild's `enabled` flag and `xp_multiplier`, and the value drawn by
`random.randint(0, 10)`. -/
structure MsgCtx where
  isBot : Bool
  contentLen : ℕ
  now : ℚ
  enabled : Bool
  mult : ℚ
  roll : ℕ
deriving Repr, DecidableEq

/-- The mutable state `on_message` touches for one `(guild, user)` pair:
the cooldown entry `self.cooldowns[f"{gid}_{uid}"]` and the stored level
record (absent until first grant). -/
structure PairState where
  cooldown : Option ℚ
  stored : Option UserRecord
deriving Repr, DecidableEq

/-- The handler's cooldown guard: the entry exists and
`now - last < 60` (in which case `on_message` returns early). -/
def cooldownBlocks (cd : Option ℚ) (now : ℚ) : Bool :=
  match cd with
  | some t => decide (now - t < 60)
  | none => false

/-- Eligibility for a message-driven award: the negation of the guard. -/
def isEligible (cd : Option ℚ) (now : ℚ) : Bool := !cooldownBlocks cd now

/-- `Leveling.on_message` for one `(guild, user)` pair: bot and length
checks, cooldown guard, unconditional cooldown overwrite, `enabled` gate,
then the grant of `15 + randint(0, 10)` XP through `add_user_xp` (lazily
initializing the record).  Returns the new state and whether XP was
awarded. -/
def onMessage (st : PairState) (ctx : MsgCtx) : PairState × Bool :=
  if ctx.isBot then (st, false)
  else if ctx.contentLen < 5 then (st, false)
  else if cooldownBlocks st.cooldown ctx.now then (st, false)
  else
    let st1 : PairState := ⟨some ctx.now, st.stored⟩
    if !ctx.enabled then (st1, false)
    else
      let r := addUserXp (st1.stored.getD defaultRecord) (15 + ctx.roll) ctx.mult
      (⟨st1.cooldown, some (recordOf r)⟩, true)

/-- `Leveling.add_xp_command` (without its reply formatting): rejects
`amount <= 0` and `amount > 10000`, otherwise calls `add_user_xp`.  It
never reads the guild's `enabled` flag.  Returns the stored record and
whether the grant was applied. -/
def addXpCommand (stored : Option UserRecord) (mult : ℚ) (amount : ℤ) :
    Option UserRecord × Bool :=
  if amount ≤ 0 then (stored, false)
  else if 10000 < amount then (stored, false)
  else
    let r := addUserXp (stored.getD defaultRecord) amount.toNat mult
    (some (recordOf r), true)

/-- The levels for which `on_message` performs the role-reward lookup
after a grant: lines 103-111 check `level_roles[str(new_level)]` for the
single final level, and only when `leveled_up` was reported. -/
def roleLevelsEvaluated (r : GrantResult) : List ℕ :=
  if r.leveled_up then [r.level] else []

/-- The levels a grant gained: every level in `(oldLevel, newLevel]`. -/
def levelsGained (oldLevel newLevel : ℕ) : List ℕ :=
  List.range' (oldLevel + 1) (newLevel - oldLevel)

/-! ## Leaderboard (`get_level_leaderboard`) and rank

Python's `list.sort(key=..., reverse=True)` is a stable descending sort;
the stable descending order is a unique function of the input sequence,
realized here by a stable insertion sort over the map's insertion-ordered
item list. -/

/-- Insert an entry into a (descending) list: it goes after every entry
with `total_xp` greater than or equal to its own, preserving the original
order among ties. -/
def insertByTotalXp (x : ℕ × UserRecord) :
    List (ℕ × UserRecord) → List (ℕ × UserRecord)
  | [] => [x]
  | y :: ys =>
    if x.2.total_xp ≤ y.2.total_xp then y :: insertByTotalXp x ys
    else x :: y :: ys

/-- `DataManager.get_level_leaderboard`: the guild's user items (in the
dict's insertion order) sorted by `total_xp`, highest first, stably. -/
def getLevelLeaderboard (users : List (ℕ × UserRecord)) :
    List (ℕ × UserRecord) :=
  users.foldl (fun acc x => insertByTotalXp x acc) []

/-- The rank computation of `Leveling.rank_command`: enumerate the
leaderboard and report `i + 1` for the first entry whose user id
matches. -/
def rankOf (lb : List (ℕ × UserRecord)) (uid : ℕ) : Option ℕ :=
  (lb.findIdx? (fun e => e.1 == uid)).map (· + 1)

/-! ## `get_user_level_data` at the dict level

For the reachability question about the `rank` command's
"hasn't earned any XP yet" branch, the stored record is modelled as the
JSON dict it is in Python (a field-name/value association list), since the
branch guard `if not user_data:` tests dict emptiness. -/

/-- The dict `add_user_xp` writes for a user (also the literal default
`get_user_level_data` returns): always three fields. -/
def recToDict (r : UserRecord) : List (String × ℕ) :=
  [("level", r.level), ("xp", r.xp), ("total_xp", r.total_xp)]

/-- `DataManager.get_user_level_data`: the stored dict for `uid`, or the
default `{"level": 1, "xp": 0, "total_xp": 0}` when none is stored. -/
def getUserLevelData (users : List (String × List (String × ℕ)))
    (uid : String) : List (String × ℕ) :=
  (users.lookup uid).getD (recToDict defaultRecord)

/-- The `rank_command` guard `if not user_data:`: taken exactly when the
returned dict is empty (falsy). -/
def rankNoXpBranch (users : List (String × List (String × ℕ)))
    (uid : String) : Bool :=
  (getUserLevelData users uid).isEmpty

/-! ## General lemmas about the engine -/

theorem ratTrunc_eq_floor {q : ℚ} (h : 0 ≤ q) : ratTrunc q = ⌊q⌋ := by
  rw [ratTrunc, Rat.floor_def]
  exact Int.tdiv_eq_ediv (Rat.num_nonneg.mpr h) (Int.ofNat_nonneg _)

theorem ratTrunc_natCast (n : ℕ) : ratTrunc (n : ℚ) = n := by
  rw [ratTrunc_eq_floor (by positivity)]
  exact Int.floor_natCast n

theorem levelLoop_xp_lt (level xp : ℕ) (b : Bool) :
    (levelLoop level xp b).2.1 < xpRequired (levelLoop level xp b).1 := by
  induction level, xp, b using levelLoop.induct with
  | case1 level xp b h ih =>
    rw [levelLoop]
    simpa [if_pos h] using ih
  | case2 level xp b h =>
    rw [levelLoop]
    simpa [if_neg h] using Nat.lt_of_not_le h

theorem addUserXp_total_xp (rec : UserRecord) (amount : ℕ) (mult : ℚ) :
    (addUserXp rec amount mult).total_xp
      = rec.total_xp + (ratTrunc ((amount : ℚ) * mult)).toNat := rfl

theorem applyGrants_total_xp (mult : ℚ) (l : List ℕ) (rec : UserRecord) :
    (applyGrants rec mult l).total_xp
      = rec.total_xp + (l.map (fun a : ℕ => (ratTrunc ((a : ℚ) * mult)).toNat)).sum := by
  induction l generalizing rec with
  | nil => simp [applyGrants]
  | cons a as ih =>
    rw [applyGrants, ih]
    simp [recordOf, addUserXp_total_xp, Nat.add_assoc]

theorem applyGrants_append (mult : ℚ) (p q : List ℕ) (rec : UserRecord) :
    applyGrants rec mult (p ++ q) = applyGrants (applyGrants rec mult p) mult q := by
  induction p generalizing rec with
  | nil => simp [applyGrants]
  | cons a as ih => rw [List.cons_append, applyGrants, applyGrants, ih]

theorem le_applyGrants_total_xp (mult : ℚ) (l : List ℕ) (rec : UserRecord) :
    rec.total_xp ≤ (applyGrants rec mult l).total_xp := by
  rw [applyGrants_total_xp]
  exact Nat.le_add_right _ _

theorem addUserXp_fresh_149 : addUserXp defaultRecord 149 1 = ⟨1, 149, 149, false⟩ := by
  simp only [addUserXp, defaultRecord, mul_one, ratTrunc_natCast, Int.toNat_natCast]
  simp [levelLoop, xpRequired]

theorem addUserXp_fresh_150 : addUserXp defaultRecord 150 1 = ⟨2, 0, 150, true⟩ := by
  simp only [addUserXp, defaultRecord, mul_one, ratTrunc_natCast, Int.toNat_natCast]
  simp [levelLoop, xpRequired]

theorem addUserXp_fresh_450 : addUserXp defaultRecord 450 1 = ⟨3, 0, 450, true⟩ := by
  simp only [addUserXp, defaultRecord, mul_one, ratTrunc_natCast, Int.toNat_natCast]
  simp [levelLoop, xpRequired]

/-! ## The claims -/

/-- Claim C1: for every user record and every non-negative XP grant, the
record `add_user_xp` leaves behind satisfies `0 ≤ xp < required(level)`
with `required(level) = floor(100 * level * 1.5)`: the level-up loop runs
to convergence and never leaves a post-level-up state. -/
theorem claim1_xp_bound_after_grant (rec : UserRecord) (amount : ℕ) (mult : ℚ) :
    (0 ≤ (addUserXp rec amount mult).xp
      ∧ (addUserXp rec amount mult).xp
          < xpRequired (addUserXp rec amount mult).level)
    ∧ ∀ lv : ℕ, (xpRequired lv : ℤ) = ⌊(100 : ℚ) * ((lv : ℚ) * (3 / 2))⌋ := by
  refine ⟨⟨Nat.zero_le _, ?_⟩, ?_⟩
  · exact levelLoop_xp_lt rec.level _ false
  · intro lv
    have h : (100 : ℚ) * ((lv : ℚ) * (3 / 2)) = ((150 * lv : ℕ) : ℚ) := by
      push_cast
      ring
    rw [h, Int.floor_natCast, xpRequired]

/-- Claim C2: a fresh user (level 1, xp 0, total_xp 0) with multiplier 1.0
granted 149 XP stays at level 1 with xp 149 and no level-up; granted 150
reaches level 2 with xp 0 and a level-up; granted 450 reaches level 3 with
xp 0 and a level-up, one call crossing two levels. -/
theorem claim2_fresh_user_grants :
    addUserXp defaultRecord 149 1 = ⟨1, 149, 149, false⟩
    ∧ addUserXp defaultRecord 150 1 = ⟨2, 0, 150, true⟩
    ∧ addUserXp defaultRecord 450 1 = ⟨3, 0, 450, true⟩ :=
  ⟨addUserXp_fresh_149, addUserXp_fresh_150, addUserXp_fresh_450⟩

/-- Claim C4: over any sequence of non-negative grants, `total_xp` is
non-decreasing across calls and ends up exactly the sum over the calls of
`floor(raw_amount * xp_multiplier)`; `add_user_xp` never decrements it. -/
theorem claim4_total_xp_accounting (rec : UserRecord) (mult : ℚ) (l : List ℕ)
    (hm : 0 ≤ mult) :
    (applyGrants rec mult l).total_xp
      = rec.total_xp + (l.map (fun a : ℕ => (⌊(a : ℚ) * mult⌋).toNat)).sum
    ∧ ∀ p q, l = p ++ q →
        (applyGrants rec mult p).total_xp ≤ (applyGrants rec mult l).total_xp := by
  have hfun : (fun a : ℕ => (ratTrunc ((a : ℚ) * mult)).toNat)
      = fun a : ℕ => (⌊(a : ℚ) * mult⌋).toNat := by
    funext a
    rw [ratTrunc_eq_floor (mul_nonneg (by positivity) hm)]
  constructor
  · rw [applyGrants_total_xp, hfun]
  · rintro p q rfl
    rw [applyGrants_append]
    exact le_applyGrants_total_xp mult q (applyGrants rec mult p)

/-- Witness for claim C4 at a concrete input. -/
theorem claim4_total_xp_accounting_witness :
    (0 : ℚ) ≤ 1
    ∧ ((applyGrants defaultRecord 1 [10, 20]).total_xp
        = defaultRecord.total_xp
            + (([10, 20] : List ℕ).map (fun a : ℕ => (⌊(a : ℚ) * (1 : ℚ)⌋).toNat)).sum
      ∧ ∀ p q, ([10, 20] : List ℕ) = p ++ q →
          (applyGrants defaultRecord 1 p).total_xp
            ≤ (applyGrants defaultRecord 1 [10, 20]).total_xp) :=
  ⟨by norm_num, claim4_total_xp_accounting defaultRecord 1 [10, 20] (by norm_num)⟩

/-- Claim C6: each grant gains exactly `floor(raw_amount * xp_multiplier)`
XP, with the truncation applied once per call; with multiplier `1.5`, a
raw amount of 10 gains 15 and a raw amount of 7 gains 10. -/
theorem claim6_multiplier_truncation (rec : UserRecord) (amount : ℕ) (mult : ℚ)
    (hm : 0 ≤ mult) :
    (addUserXp rec amount mult).total_xp
      = rec.total_xp + (⌊(amount : ℚ) * mult⌋).toNat
    ∧ (addUserXp defaultRecord 10 (3 / 2)).total_xp = 15
    ∧ (addUserXp defaultRecord 7 (3 / 2)).total_xp = 10 := by
  refine ⟨?_, ?_, ?_⟩
  · rw [addUserXp_total_xp, ratTrunc_eq_floor (mul_nonneg (by positivity) hm)]
  · rw [addUserXp_total_xp, ratTrunc_eq_floor (by norm_num)]
    norm_num [defaultRecord]
    rfl
  · rw [addUserXp_total_xp, ratTrunc_eq_floor (by norm_num)]
    norm_num [defaultRecord, Int.floor_eq_iff]
    rfl

/-- Witness for claim C6 at a concrete input. -/
theorem claim6_multiplier_truncation_witness :
    (0 : ℚ) ≤ 3 / 2
    ∧ ((addUserXp defaultRecord 10 (3 / 2)).total_xp
        = defaultRecord.total_xp + (⌊((10 : ℕ) : ℚ) * (3 / 2)⌋).toNat
      ∧ (addUserXp defaultRecord 10 (3 / 2)).total_xp = 15
      ∧ (addUserXp defaultRecord 7 (3 / 2)).total_xp = 10) :=
  ⟨by norm_num, claim6_multiplier_truncation defaultRecord 10 (3 / 2) (by norm_num)⟩

/-- Counterexample to claim C3: a single grant of 450 XP to a fresh user
(multiplier 1.0) gains levels 2 and 3, but the message handler performs
the role-reward lookup only for the final level 3; the intermediate
level 2 is never evaluated. -/
theorem claim3_intermediate_level_skipped :
    2 ∈ levelsGained defaultRecord.level (addUserXp defaultRecord 450 1).level
    ∧ 2 ∉ roleLevelsEvaluated (addUserXp defaultRecord 450 1) := by
  rw [addUserXp_fresh_450]
  decide

/-- Amended claim C3: when a grant reports a level-up, the message handler
evaluates the configured role reward only for the final level reached;
every gained level other than the final one is skipped, never
evaluated. -/
theorem claim3_only_final_level_evaluated (rec : UserRecord) (amount : ℕ)
    (mult : ℚ) :
    (∀ l, l ∈ roleLevelsEvaluated (addUserXp rec amount mult)
      → l = (addUserXp rec amount mult).level)
    ∧ ∀ l, l ∈ levelsGained rec.level (addUserXp rec amount mult).level
      → l ≠ (addUserXp rec amount mult).level
      → l ∉ roleLevelsEvaluated (addUserXp rec amount mult) := by
  constructor
  · intro l hl
    unfold roleLevelsEvaluated at hl
    rcases h : (addUserXp rec amount mult).leveled_up with _ | _ <;>
      simp [h] at hl
    · exact hl
  · intro l _ hne hmem
    unfold roleLevelsEvaluated at hmem
    rcases h : (addUserXp rec amount mult).leveled_up with _ | _ <;>
      simp [h] at hmem
    · exact hne hmem

/-- Witness for the amended claim C3 at a concrete input. -/
theorem claim3_only_final_level_evaluated_witness :
    (3 : ℕ) = (addUserXp defaultRecord 450 1).level :=
  (claim3_only_final_level_evaluated defaultRecord 450 1).1 3
    (by rw [addUserXp_fresh_450]; decide)

/-- Claim C5: a user is eligible for a message-driven award exactly when
no cooldown timestamp is recorded or at least 60 seconds have passed; an
award fires exactly on a qualifying (non-bot, length at least 5),
eligible, enabled message; in particular of two qualifying messages 30
seconds apart only the first awards XP, and a further one 61 seconds
after the awarded one succeeds. -/
theorem claim5_cooldown_enforcement :
    (∀ (cd : Option ℚ) (now : ℚ),
      isEligible cd now = true ↔ (cd = none ∨ ∃ t, cd = some t ∧ 60 ≤ now - t))
    ∧ (∀ (st : PairState) (ctx : MsgCtx),
        (onMessage st ctx).2
          = (!ctx.isBot && !decide (ctx.contentLen < 5)
              && isEligible st.cooldown ctx.now && ctx.enabled))
    ∧ ((onMessage ⟨none, none⟩ ⟨false, 5, 0, true, 1, 0⟩).2 = true
      ∧ (onMessage (onMessage ⟨none, none⟩ ⟨false, 5, 0, true, 1, 0⟩).1
          ⟨false, 5, 30, true, 1, 0⟩).2 = false
      ∧ (onMessage (onMessage (onMessage ⟨none, none⟩
            ⟨false, 5, 0, true, 1, 0⟩).1 ⟨false, 5, 30, true, 1, 0⟩).1
          ⟨false, 5, 61, true, 1, 0⟩).2 = true) := by
  refine ⟨?_, ?_, ?_⟩
  · intro cd now
    cases cd with
    | none => simp [isEligible, cooldownBlocks]
    | some t => simp [isEligible, cooldownBlocks, not_lt]
  · intro st ctx
    by_cases hb : ctx.isBot = true <;> by_cases hl : ctx.contentLen < 5 <;>
      by_cases hc : cooldownBlocks st.cooldown ctx.now = true <;>
      by_cases he : ctx.enabled = true <;>
        simp [onMessage, isEligible, hb, hl, hc, he, Bool.not_eq_true]
  · norm_num [onMessage, cooldownBlocks]

/-- Claim C7: with leveling disabled for the guild, a message-driven grant
leaves the stored level record unchanged, while the admin `/addxp` command
with a valid amount (positive, at most 10000) applies the grant through
`add_user_xp`; the command logic reads no `enabled` flag at all. -/
theorem claim7_disabled_gating :
    (∀ (st : PairState) (bot : Bool) (len : ℕ) (now mult : ℚ) (roll : ℕ),
      ((onMessage st ⟨bot, len, now, false, mult, roll⟩).1).stored = st.stored)
    ∧ ∀ (stored : Option UserRecord) (mult : ℚ) (amount : ℤ),
        0 < amount → amount ≤ 10000 →
        addXpCommand stored mult amount
          = (some (recordOf
              (addUserXp (stored.getD defaultRecord) amount.toNat mult)), true) := by
  constructor
  · intro st bot len now mult roll
    by_cases hb : bot = true <;> by_cases hl : len < 5 <;>
      by_cases hc : cooldownBlocks st.cooldown now = true <;>
        simp [onMessage, hb, hl, hc]
  · intro stored mult amount h1 h2
    rw [addXpCommand, if_neg (by omega), if_neg (by omega)]

/-- Witness for claim C7 at a concrete input. -/
theorem claim7_disabled_gating_witness :
    ((0 : ℤ) < 5 ∧ (5 : ℤ) ≤ 10000)
    ∧ ((onMessage ⟨none, none⟩ ⟨false, 5, 0, false, 1, 0⟩).1).stored
        = (PairState.mk none none).stored
    ∧ addXpCommand none 1 5
        = (some (recordOf (addUserXp ((none : Option UserRecord).getD
            defaultRecord) (5 : ℤ).toNat 1)), true) :=
  ⟨⟨by norm_num, by norm_num⟩,
   claim7_disabled_gating.1 ⟨none, none⟩ false 5 0 1 0,
   claim7_disabled_gating.2 none 1 5 (by norm_num) (by norm_num)⟩

/-- Claim C10: on a qualifying, cooldown-eligible message the handler
overwrites the cooldown entry before it checks `enabled`: with leveling
disabled the stored record is unchanged, yet the cooldown is set to the
message time, making the user ineligible for message-driven awards at any
instant less than 60 seconds later. -/
theorem claim10_cooldown_recorded_while_disabled (st : PairState) (ctx : MsgCtx)
    (hb : ctx.isBot = false) (hl : 5 ≤ ctx.contentLen)
    (he : isEligible st.cooldown ctx.now = true) (hen : ctx.enabled = false) :
    (onMessage st ctx).1.cooldown = some ctx.now
    ∧ (onMessage st ctx).1.stored = st.stored
    ∧ ∀ t : ℚ, t - ctx.now < 60 →
        isEligible (onMessage st ctx).1.cooldown t = false := by
  have hc : cooldownBlocks st.cooldown ctx.now = false := by
    simpa [isEligible] using he
  have hmsg : onMessage st ctx = (⟨some ctx.now, st.stored⟩, false) := by
    rw [onMessage, if_neg (by simp [hb]), if_neg (by omega), if_neg (by simp [hc]),
      if_pos (by simp [hen])]
  refine ⟨by rw [hmsg], by rw [hmsg], ?_⟩
  intro t ht
  rw [hmsg]
  simp [isEligible, cooldownBlocks, ht]

/-- Witness for claim C10 at a concrete input. -/
theorem claim10_cooldown_recorded_while_disabled_witness :
    (onMessage ⟨none, none⟩ ⟨false, 5, 0, false, 1, 0⟩).1.cooldown
        = some (0 : ℚ)
    ∧ (onMessage ⟨none, none⟩ ⟨false, 5, 0, false, 1, 0⟩).1.stored
        = (PairState.mk none none).stored
    ∧ ∀ t : ℚ, t - 0 < 60 →
        isEligible (onMessage ⟨none, none⟩
          ⟨false, 5, 0, false, 1, 0⟩).1.cooldown t = false :=
  claim10_cooldown_recorded_while_disabled ⟨none, none⟩
    ⟨false, 5, 0, false, 1, 0⟩ rfl (by norm_num) (by simp [isEligible, cooldownBlocks]) rfl

theorem insertByTotalXp_perm (x : ℕ × UserRecord) (l : List (ℕ × UserRecord)) :
    (insertByTotalXp x l).Perm (x :: l) := by
  induction l with
  | nil => exact List.Perm.refl _
  | cons y ys ih =>
    by_cases hxy : x.2.total_xp ≤ y.2.total_xp
    · rw [insertByTotalXp, if_pos hxy]
      exact (ih.cons y).trans (List.Perm.swap x y ys)
    · rw [insertByTotalXp, if_neg hxy]

theorem insertByTotalXp_pairwise (x : ℕ × UserRecord)
    (l : List (ℕ × UserRecord))
    (h : List.Pairwise (fun a b => b.2.total_xp ≤ a.2.total_xp) l) :
    List.Pairwise (fun a b => b.2.total_xp ≤ a.2.total_xp)
      (insertByTotalXp x l) := by
  induction l with
  | nil => simp [insertByTotalXp]
  | cons y ys ih =>
    rw [List.pairwise_cons] at h
    by_cases hxy : x.2.total_xp ≤ y.2.total_xp
    · rw [insertByTotalXp, if_pos hxy, List.pairwise_cons]
      refine ⟨?_, ih h.2⟩
      intro z hz
      rcases List.mem_cons.mp ((insertByTotalXp_perm x ys).mem_iff.mp hz) with
        rfl | hz
      · exact hxy
      · exact h.1 z hz
    · rw [insertByTotalXp, if_neg hxy, List.pairwise_cons]
      refine ⟨?_, List.pairwise_cons.mpr h⟩
      intro z hz
      rcases List.mem_cons.mp hz with rfl | hz
      · exact Nat.le_of_lt (Nat.lt_of_not_le hxy)
      · exact Nat.le_trans (h.1 z hz) (Nat.le_of_lt (Nat.lt_of_not_le hxy))

theorem insertByTotalXp_filter (x : ℕ × UserRecord)
    (l : List (ℕ × UserRecord)) (k : ℕ)
    (h : List.Pairwise (fun a b => b.2.total_xp ≤ a.2.total_xp) l) :
    (insertByTotalXp x l).filter (fun e => e.2.total_xp == k)
      = if x.2.total_xp = k
          then l.filter (fun e => e.2.total_xp == k) ++ [x]
          else l.filter (fun e => e.2.total_xp == k) := by
  induction l with
  | nil =>
    by_cases hx : x.2.total_xp = k <;>
      simp [insertByTotalXp, List.filter_cons, hx]
  | cons y ys ih =>
    rw [List.pairwise_cons] at h
    by_cases hxy : x.2.total_xp ≤ y.2.total_xp
    · rw [insertByTotalXp, if_pos hxy, List.filter_cons, List.filter_cons,
        ih h.2]
      by_cases hy : y.2.total_xp = k <;> by_cases hx : x.2.total_xp = k <;>
        simp [hy, hx]
    · have hyx : y.2.total_xp < x.2.total_xp := Nat.lt_of_not_le hxy
      rw [insertByTotalXp, if_neg hxy]
      by_cases hx : x.2.total_xp = k
      · have hnil : (y :: ys).filter (fun e => e.2.total_xp == k) = [] := by
          rw [List.filter_eq_nil_iff]
          intro z hz
          have hzy : z.2.total_xp ≤ y.2.total_xp := by
            rcases List.mem_cons.mp hz with rfl | hz
            · exact Nat.le_refl _
            · exact h.1 z hz
          have hlt : z.2.total_xp < k := hx ▸ Nat.lt_of_le_of_lt hzy hyx
          simp [Nat.ne_of_lt hlt]
        rw [List.filter_cons]
        simp [hx, hnil]
      · rw [List.filter_cons]
        simp [hx]

theorem foldl_insertByTotalXp_pairwise (users : List (ℕ × UserRecord)) :
    ∀ acc, List.Pairwise (fun a b => b.2.total_xp ≤ a.2.total_xp) acc →
      List.Pairwise (fun a b => b.2.total_xp ≤ a.2.total_xp)
        (users.foldl (fun acc x => insertByTotalXp x acc) acc) := by
  induction users with
  | nil => intro acc h; simpa using h
  | cons u us ih =>
    intro acc h
    rw [List.foldl_cons]
    exact ih _ (insertByTotalXp_pairwise u acc h)

theorem foldl_insertByTotalXp_filter (k : ℕ) (users : List (ℕ × UserRecord)) :
    ∀ acc, List.Pairwise (fun a b => b.2.total_xp ≤ a.2.total_xp) acc →
      (users.foldl (fun acc x => insertByTotalXp x acc) acc).filter
          (fun e => e.2.total_xp == k)
        = acc.filter (fun e => e.2.total_xp == k)
            ++ users.filter (fun e => e.2.total_xp == k) := by
  induction users with
  | nil => intro acc h; simp
  | cons u us ih =>
    intro acc h
    rw [List.foldl_cons, ih _ (insertByTotalXp_pairwise u acc h),
      insertByTotalXp_filter u acc k h, List.filter_cons]
    by_cases hu : u.2.total_xp = k <;> simp [hu]

/-- Claim C8: `get_level_leaderboard` sorts the user entries by `total_xp`
descending, stably with respect to the underlying map's insertion order on
ties (the entries of any fixed `total_xp` appear in their original order);
on three users with `total_xp` 500, 1500 and 1000 it yields the order
1500, 1000, 500, and the rank of a user is the 1-based index of the first
matching leaderboard entry. -/
theorem claim8_leaderboard_order (users : List (ℕ × UserRecord)) (k : ℕ) :
    List.Pairwise (fun a b => b.2.total_xp ≤ a.2.total_xp)
      (getLevelLeaderboard users)
    ∧ (getLevelLeaderboard users).filter (fun e => e.2.total_xp == k)
        = users.filter (fun e => e.2.total_xp == k)
    ∧ getLevelLeaderboard [(1, ⟨1, 0, 500⟩), (2, ⟨1, 0, 1500⟩), (3, ⟨1, 0, 1000⟩)]
        = [(2, ⟨1, 0, 1500⟩), (3, ⟨1, 0, 1000⟩), (1, ⟨1, 0, 500⟩)]
    ∧ rankOf (getLevelLeaderboard
        [(1, ⟨1, 0, 500⟩), (2, ⟨1, 0, 1500⟩), (3, ⟨1, 0, 1000⟩)]) 3 = some 2 := by
  refine ⟨?_, ?_, ?_, ?_⟩
  · exact foldl_insertByTotalXp_pairwise users [] (by simp)
  · simpa using foldl_insertByTotalXp_filter k users [] (by simp)
  · decide
  · decide

/-- Claim C9: `get_user_level_data` always returns a non-empty record,
defaulting to `{level: 1, xp: 0, total_xp: 0}` when the user has no stored
record; hence, stored records being the dicts `add_user_xp` writes, the
`rank` command's "hasn't earned any XP yet" branch (taken when the
returned dict is falsy) is unreachable. -/
theorem claim9_rank_empty_branch_unreachable
    (users : List (String × List (String × ℕ))) (uid : String)
    (hw : ∀ e ∈ users, ∃ r : UserRecord, e.2 = recToDict r) :
    (users.lookup uid = none
      → getUserLevelData users uid = recToDict defaultRecord)
    ∧ getUserLevelData users uid ≠ []
    ∧ rankNoXpBranch users uid = false := by
  have hne : getUserLevelData users uid ≠ [] := by
    rcases hl : users.lookup uid with _ | d
    · rw [getUserLevelData, hl]
      simp [recToDict]
    · obtain ⟨l₁, l₂, heq, -⟩ := List.lookup_eq_some_iff.mp hl
      have hmem : (uid, d) ∈ users := by
        rw [heq]
        exact List.mem_append_right _ (List.mem_cons_self _ _)
      obtain ⟨r, hr⟩ := hw (uid, d) hmem
      rw [getUserLevelData, hl]
      simp only [Option.getD_some]
      rw [show (uid, d).2 = d from rfl] at hr
      rw [hr]
      simp [recToDict]
  refine ⟨?_, hne, ?_⟩
  · intro h
    rw [getUserLevelData, h]
    rfl
  · rw [rankNoXpBranch]
    rcases hg : getUserLevelData users uid with _ | ⟨a, t⟩
    · exact absurd hg hne
    · rfl

/-- Witness for claim C9 at a concrete input. -/
theorem claim9_rank_empty_branch_unreachable_witness :
    ((([("7", recToDict ⟨2, 10, 160⟩)] :
        List (String × List (String × ℕ))).lookup "7" = none
      → getUserLevelData [("7", recToDict ⟨2, 10, 160⟩)] "7"
          = recToDict defaultRecord)
    ∧ getUserLevelData [("7", recToDict ⟨2, 10, 160⟩)] "7" ≠ []
    ∧ rankNoXpBranch [("7", recToDict ⟨2, 10, 160⟩)] "7" = false) :=
  claim9_rank_empty_branch_unreachable [("7", recToDict ⟨2, 10, 160⟩)] "7"
    (by
      intro e he
      rw [List.mem_singleton] at he
      exact ⟨⟨2, 10, 160⟩, by rw [he]⟩)

end LevelingBot
